import Mathlib

/-!
# Switchly account-state daemon: shallow embedding and verification

This file embeds the core data model and operations of the Switchly
credential broker (Go sources under `internal/core`, `internal/quota`,
`internal/oauth`, `internal/model`) and proves properties of them.

Modelling conventions:
* Go `time.Time` values are modelled as `Nat` (seconds); the Go zero time is
  modelled as `0`, `t.After(u)` as `t > u`, `t.IsZero()` as `t = 0`.
  Durations: 24h = 86400, 10min = 600, 50min = 3000, in seconds.
* Go string-typed enums (`AccountStatus`, `RoutingStrategy`, `SessionStatus`)
  are modelled as `String` with the source's constants, keeping the Go
  zero-value (`""`) representable exactly as in the source.
* The Go `map[string]model.Account` registry is modelled as an association
  list `List (String × Account)`; map reads of absent keys yield the zero
  `Account`, as in Go.
* Effectful collaborators (secret store, state store, credential applier,
  token refresh) are modelled by explicit outcome parameters
  (`Option String` = failure message, or lookup functions), and each
  operation returns an outcome record that logs the calls it made
  (`putCalls`, `saveCalls`, ...), so "never saved" is `saveCalls = []`.
-/

/-- `model.AuthSecrets` (internal/model/account.go). -/
structure AuthSecrets where
  accessToken : String
  refreshToken : String
  idToken : String
  accountID : String
  accessExpiresAt : Nat
  refreshExpiresAt : Nat
  deriving DecidableEq, Repr

/-- `model.QuotaWindow` (internal/model/account.go). -/
structure QuotaWindow where
  usedPercent : Int
  resetAt : Nat
  deriving DecidableEq, Repr

/-- `model.QuotaSnapshot` (internal/model/account.go); `SessionSupported`
is a `*bool` in Go, hence `Option Bool`. -/
structure QuotaSnapshot where
  session : QuotaWindow
  weekly : QuotaWindow
  sessionSupported : Option Bool
  limitReached : Bool
  lastUpdated : Nat
  deriving DecidableEq, Repr

/-- The Go zero value of `model.QuotaWindow`. -/
def zeroQuotaWindow : QuotaWindow := ⟨0, 0⟩

/-- The Go zero value of `model.QuotaSnapshot`. -/
def zeroQuotaSnapshot : QuotaSnapshot := ⟨zeroQuotaWindow, zeroQuotaWindow, none, false, 0⟩

/-- `model.AccountStatus` constants (a Go string type). -/
def AccountReady : String := "ready"

/-- `model.AccountNeedReauth`. -/
def AccountNeedReauth : String := "need_reauth"

/-- `model.AccountDisabled`. -/
def AccountDisabled : String := "disabled"

/-- `model.RoutingStrategy` constant `round-robin`. -/
def RoutingRoundRobin : String := "round-robin"

/-- `model.RoutingStrategy` constant `fill-first`. -/
def RoutingFillFirst : String := "fill-first"

/-- `model.Account` (internal/model/account.go). -/
structure Account where
  id : String
  provider : String
  email : String
  status : String
  lastAppliedAt : Nat
  accessExpiresAt : Nat
  refreshExpiresAt : Nat
  lastRefreshAt : Nat
  lastError : String
  quota : QuotaSnapshot
  createdAt : Nat
  updatedAt : Nat
  deriving DecidableEq, Repr

/-- The Go zero value of `model.Account` (what a map read of an absent key
returns). -/
def zeroAccount : Account :=
  ⟨"", "", "", "", 0, 0, 0, 0, "", zeroQuotaSnapshot, 0, 0⟩

/-- `model.AppState`: the registry document. `accounts` models the Go
`map[string]model.Account` as an association list. -/
structure AppState where
  activeAccountID : String
  strategy : String
  accounts : List (String × Account)
  deriving DecidableEq, Repr

/-- Go map read `state.Accounts[id]` returning presence. -/
def lookupAcct : List (String × Account) → String → Option Account
  | [], _ => none
  | (k, v) :: rest, id => if k = id then some v else lookupAcct rest id

/-- Go map write `state.Accounts[id] = a` (replace first binding, else append). -/
def updateAcct : List (String × Account) → String → Account → List (String × Account)
  | [], id, a => [(id, a)]
  | (k, v) :: rest, id, a =>
      if k = id then (id, a) :: rest else (k, v) :: updateAcct rest id a

/-- Go map read with zero-value default, `state.Accounts[id]`. -/
def getAcct (st : AppState) (id : String) : Account :=
  (lookupAcct st.accounts id).getD zeroAccount

theorem lookupAcct_updateAcct_self (l : List (String × Account)) (id : String) (a : Account) :
    lookupAcct (updateAcct l id a) id = some a := by
  induction l with
  | nil => simp [updateAcct, lookupAcct]
  | cons hd tl ih =>
      by_cases h : hd.1 = id
      · simp [updateAcct, lookupAcct, h]
      · simp [updateAcct, lookupAcct, h, ih]

theorem lookupAcct_updateAcct_ne (l : List (String × Account)) (id k : String) (a : Account)
    (h : k ≠ id) : lookupAcct (updateAcct l id a) k = lookupAcct l k := by
  have h' : id ≠ k := Ne.symm h
  induction l with
  | nil => simp [updateAcct, lookupAcct, h']
  | cons hd tl ih =>
      obtain ⟨k0, v0⟩ := hd
      by_cases hk : k0 = id
      · subst hk
        simp [updateAcct, lookupAcct, h']
      · by_cases hk2 : k0 = k
        · simp [updateAcct, lookupAcct, hk, hk2, h]
        · simp [updateAcct, lookupAcct, hk, hk2, ih]

theorem keys_updateAcct (l : List (String × Account)) (id : String) (a : Account)
    (h : id ∈ l.map Prod.fst) :
    (updateAcct l id a).map Prod.fst = l.map Prod.fst := by
  induction l with
  | nil => simp at h
  | cons hd tl ih =>
      by_cases hk : hd.1 = id
      · simp [updateAcct, hk]
      · simp only [List.map_cons, List.mem_cons] at h
        rcases h with h | h
        · exact absurd h.symm hk
        · simp [updateAcct, hk, ih h]

/-- Infix test on character lists: `needle` occurs contiguously in the
second argument. -/
def charsContain (needle : List Char) : List Char → Bool
  | [] => needle.isEmpty
  | c :: rest => needle.isPrefixOf (c :: rest) || charsContain needle rest

/-- Go `strings.Contains(s, pat)`. -/
def strContains (s pat : String) : Bool :=
  charsContain pat.data s.data

/-- Go `strings.ToLower` (ASCII range; the source's patterns and inputs in
the claims are ASCII). -/
def toLowerStr (s : String) : String :=
  ⟨s.data.map Char.toLower⟩

/-- Go `strings.TrimSpace`: drop leading and trailing whitespace. -/
def strTrim (s : String) : String :=
  ⟨((s.data.dropWhile Char.isWhitespace).reverse.dropWhile Char.isWhitespace).reverse⟩

/-- The twelve switch-worthy message patterns of `shouldSwitch`
(internal/core/manager.go). -/
def switchPatterns : List String :=
  ["quota exceeded", "rate limit", "limit reached", "insufficient_quota",
   "resource_exhausted", "overloaded", "capacity", "too many requests",
   "throttl", "authentication", "unauthorized", "access denied"]

/-- `shouldSwitch` (internal/core/manager.go lines 306-328).  The Go `switch`
returns `true` for 429/500/503 and falls through to the pattern checks for
every other status code; the final `return` repeats the 429/503/500 test
(unreachable given the first case, embedded faithfully). -/
def shouldSwitch (statusCode : Int) (message : String) : Bool :=
  if statusCode = 429 ∨ statusCode = 500 ∨ statusCode = 503 then true
  else
    let lower := toLowerStr message
    if switchPatterns.any (fun p => strContains lower p) then true
    else statusCode == 429 || statusCode == 503 || statusCode == 500

example : shouldSwitch 429 "" = true := by decide
example : shouldSwitch 400 "insufficient_quota" = true := by decide
example : shouldSwitch 200 "Rate limit exceeded" = true := by decide
example : shouldSwitch 200 "ok" = false := by decide

/-! ## Quota fetcher (internal/quota: window.go-equivalent in part_008, codex_usage_api.go in part_009) -/

/-- `quota.Window` (internal/quota). -/
structure Window where
  usedPercent : Int
  resetAt : Nat
  deriving DecidableEq, Repr

/-- `quota.Snapshot` (internal/quota).  The `SessionUnsupported` field is
written by `FetchCodexSnapshot` in the current fetcher source. -/
structure Snapshot where
  session : Option Window
  weekly : Option Window
  sourceTimestamp : Nat
  limitReached : Bool
  sessionUnsupported : Bool
  deriving DecidableEq, Repr

/-- `quota.clampUsedPercent`.  The source first rounds the upstream float
with `math.Round`; here the input is the already-rounded integer. -/
def clampUsedPercent (v : Int) : Int :=
  if v < 0 then 0 else if v > 100 then 100 else v

/-- `quota.codexAPIWindow`: an upstream usage window, with `usedPercent`
already rounded to an integer and `resetAt` in Unix seconds (`Int`, as the
source's `int64`). -/
structure CodexAPIWindow where
  usedPercent : Int
  resetAt : Int
  deriving DecidableEq, Repr

/-- `quota.toWindowFromAPI` composed with `quota.toWindow`: `nil` stays
`nil`; the percent is clamped; `ResetAt` is set only when the raw value is
positive (otherwise the Go zero time, modelled as `0`). -/
def toWindowFromAPI : Option CodexAPIWindow → Option Window
  | none => none
  | some raw =>
      some ⟨clampUsedPercent raw.usedPercent,
            if raw.resetAt > 0 then raw.resetAt.toNat else 0⟩

/-- `quota.looksLikeWeeklyOnlyPrimary` (codex_usage_api.go). -/
def looksLikeWeeklyOnlyPrimary (primary : Option Window) (now : Nat) : Bool :=
  match primary with
  | none => false
  | some w => if w.resetAt = 0 then false else decide (w.resetAt > now + 86400)

/-- `quota.secondaryLooksPlaceholder` (codex_usage_api.go). -/
def secondaryLooksPlaceholder (secondary : Option Window) : Bool :=
  match secondary with
  | none => false
  | some w => decide (w.usedPercent = 0) && decide (w.resetAt = 0)

/-- The window-mapping core of `quota.FetchCodexSnapshot`
(codex_usage_api.go): everything after the HTTP response has been decoded
into `limitReached` and the two optional raw windows; `now` is the
snapshot's source timestamp (`time.Now()`). -/
def FetchCodexSnapshotCore (primaryRaw secondaryRaw : Option CodexAPIWindow)
    (limitReached : Bool) (now : Nat) : Snapshot :=
  let primary := toWindowFromAPI primaryRaw
  let secondary0 := toWindowFromAPI secondaryRaw
  let secondary :=
    if secondaryLooksPlaceholder secondary0 && looksLikeWeeklyOnlyPrimary primary now
    then none else secondary0
  match secondary with
  | some s =>
      { session := primary, weekly := some s, sourceTimestamp := now,
        limitReached := limitReached, sessionUnsupported := false }
  | none =>
      if looksLikeWeeklyOnlyPrimary primary now then
        { session := none, weekly := primary, sourceTimestamp := now,
          limitReached := limitReached, sessionUnsupported := true }
      else
        { session := primary, weekly := none, sourceTimestamp := now,
          limitReached := limitReached, sessionUnsupported := false }

/-- The all-absent upstream snapshot (`quota.Snapshot{}` zero value). -/
def emptySnapshot : Snapshot :=
  ⟨none, none, 0, false, false⟩

/-- Modelled from the spec: `mergeQuotaSnapshot` — the Manager's merge of a
fetched `quota.Snapshot` into an account's stored `model.QuotaSnapshot`.
The implementation is absent from src/ (only `manager_test.go` exercises
it); spec §5: "missing windows in the new snapshot do NOT overwrite
existing windows ... `limit_reached` is the OR of the incoming signal and
any derivation from merged percents (session or weekly ≥ 100).
`session_supported` is set only when the snapshot explicitly reports it." -/
def mergeQuotaSnapshot (current : QuotaSnapshot) (snap : Snapshot) (now : Nat) :
    QuotaSnapshot :=
  let session := match snap.session with
    | some w => ({ usedPercent := w.usedPercent, resetAt := w.resetAt } : QuotaWindow)
    | none => current.session
  let weekly := match snap.weekly with
    | some w => ({ usedPercent := w.usedPercent, resetAt := w.resetAt } : QuotaWindow)
    | none => current.weekly
  { session := session
    weekly := weekly
    sessionSupported :=
      if snap.sessionUnsupported then some false else current.sessionSupported
    limitReached :=
      snap.limitReached || decide (session.usedPercent ≥ 100)
        || decide (weekly.usedPercent ≥ 100)
    lastUpdated := now }

/-! ## Candidate ordering (internal/core/manager.go `orderedCandidates`) -/

/-- The fill-first sort key: `Session.UsedPercent + Weekly.UsedPercent` of
the registry record (Go map read, zero value when absent). -/
def fillKey (st : AppState) (id : String) : Int :=
  (getAcct st id).quota.session.usedPercent + (getAcct st id).quota.weekly.usedPercent

/-- The fill-first ordering: ascending used-percent sum, ties by id
ascending.  The source's `sort.Slice` uses the strict form of this
relation; on distinct ids both determine the same unique sorted list. -/
def fillLE (st : AppState) (a b : String) : Prop :=
  fillKey st a < fillKey st b ∨ (fillKey st a = fillKey st b ∧ a ≤ b)

instance (st : AppState) : DecidableRel (fillLE st) := fun _ _ =>
  inferInstanceAs (Decidable (_ ∨ _))

instance (st : AppState) : IsTotal String (fillLE st) where
  total a b := by
    rcases lt_trichotomy (fillKey st a) (fillKey st b) with h | h | h
    · exact Or.inl (Or.inl h)
    · rcases le_total a b with hab | hab
      · exact Or.inl (Or.inr ⟨h, hab⟩)
      · exact Or.inr (Or.inr ⟨h.symm, hab⟩)
    · exact Or.inr (Or.inl h)

instance (st : AppState) : IsTrans String (fillLE st) where
  trans a b c hab hbc := by
    rcases hab with hab | ⟨hab, hab'⟩
    · rcases hbc with hbc | ⟨hbc, _⟩
      · exact Or.inl (hab.trans hbc)
      · exact Or.inl (hbc ▸ hab)
    · rcases hbc with hbc | ⟨hbc, hbc'⟩
      · exact Or.inl (hab ▸ hbc)
      · exact Or.inr ⟨hab.trans hbc, hab'.trans hbc'⟩

/-- `orderedCandidates` (manager.go lines 280-304): all account ids except
the current active; fill-first sorts by ascending used-percent sum with
ties by id, any other strategy falls back to `sort.Strings` (lexicographic
by id). -/
def orderedCandidates (st : AppState) (activeID : String) : List String :=
  let ids := (st.accounts.map Prod.fst).filter (fun id => id ≠ activeID)
  if st.strategy = RoutingFillFirst then
    ids.insertionSort (fillLE st)
  else
    ids.insertionSort (· ≤ ·)

/-! ## HandleQuotaError (internal/core/manager.go lines 221-278)

`ensureFreshToken` performs secret-store reads and a network token refresh;
it is abstracted by an oracle `fresh : String → Option String` giving, per
account id, `none` when the token check succeeds and `some msg` when it
fails with error message `msg` (the fields it refreshes on the account
record are not touched by any claim).  The state store's `Save` is modelled
as succeeding; `HQResult.saved` records whether `Save` was invoked. -/

/-- `core.SwitchDecision`. -/
structure SwitchDecision where
  switched : Bool
  fromAccountID : String
  toAccountID : String
  reason : String
  deriving DecidableEq, Repr

/-- The candidate record update on a failed token check:
`need_reauth` + error message + `UpdatedAt` stamp. -/
def markReauth (acct : Account) (msg : String) (now : Nat) : Account :=
  { acct with status := AccountNeedReauth, lastError := msg, updatedAt := now }

/-- The candidate record update on a successful token check:
`ready`, error cleared, `UpdatedAt` stamp. -/
def markReady (acct : Account) (now : Nat) : Account :=
  { acct with status := AccountReady, lastError := "", updatedAt := now }

/-- The candidate loop of `HandleQuotaError`: skip `disabled`, mark
`need_reauth` and continue on a failed freshness check, and stop at the
first candidate whose token is fresh, making it ready and active.
Returns the resulting in-memory state and the chosen id, if any. -/
def attemptSwitch (fresh : String → Option String) (now : Nat) :
    List String → AppState → AppState × Option String
  | [], st => (st, none)
  | id :: rest, st =>
      let acct := getAcct st id
      if acct.status = AccountDisabled then attemptSwitch fresh now rest st
      else
        match fresh id with
        | some msg =>
            attemptSwitch fresh now rest
              { st with accounts := updateAcct st.accounts id (markReauth acct msg now) }
        | none =>
            ({ st with
                accounts := updateAcct st.accounts id (markReady acct now)
                activeAccountID := id },
             some id)

/-- Outcome of `HandleQuotaError`: the decision, the state as persisted (or
the untouched input state when nothing was persisted), and whether
`Save` was invoked. -/
structure HQResult where
  decision : SwitchDecision
  state : AppState
  saved : Bool
  deriving DecidableEq, Repr

/-- `HandleQuotaError` (manager.go lines 221-278). -/
def HandleQuotaError (st0 : AppState) (fresh : String → Option String) (now : Nat)
    (statusCode : Int) (errorMessage : String) : Except String HQResult :=
  if shouldSwitch statusCode errorMessage = false then
    .ok ⟨⟨false, "", "", "not-switchable-error"⟩, st0, false⟩
  else if st0.activeAccountID = "" then .error "no active account configured"
  else if st0.accounts = [] then .error "no accounts configured"
  else
    let activeID := st0.activeAccountID
    match attemptSwitch fresh now (orderedCandidates st0 activeID) st0 with
    | (st, some toID) => .ok ⟨⟨true, activeID, toID, "quota-exceeded"⟩, st, true⟩
    | (st, none) => .ok ⟨⟨false, activeID, "", "no-available-account"⟩, st, true⟩

/-! ## AddAccount (internal/core/manager.go lines 66-124) -/

/-- `core.AddAccountInput`. -/
structure AddAccountInput where
  id : String
  provider : String
  email : String
  secrets : AuthSecrets
  deriving DecidableEq, Repr

/-- The errors `AddAccount` can return.  `persistSecrets e` embeds
`fmt.Errorf("%w: %v", ErrPersistSecrets, e)`; `persistState e none` embeds
`fmt.Errorf("%w: %v", ErrPersistState, e)`; `persistState e (some de)`
embeds `fmt.Errorf("%w: %v (rollback failed: %v)", ErrPersistState, e, de)`,
which surfaces both underlying causes. -/
inductive AddAccountError where
  | validation (msg : String)
  | persistSecrets (cause : String)
  | persistState (cause : String) (rollbackCause : Option String)
  deriving DecidableEq, Repr

/-- Outcome of `AddAccount`: the returned value or error, plus a log of the
calls made to the secret store (`Put`, `Delete`) and the state store
(`Save`), and the registry state that ended up persisted, if any. -/
structure AddAccountOutcome where
  result : Except AddAccountError Account
  putCalls : List (String × AuthSecrets)
  deleteCalls : List String
  saveCalls : List AppState
  savedState : Option AppState
  deriving Repr

/-- `AddAccount` (manager.go lines 66-124).  `putErr`, `saveErr`,
`deleteErr` are the failure outcomes of the secret-store `Put`, the
state-store `Save`, and the rollback `Delete`; the state store's `Load` is
modelled as returning `st0`. -/
def AddAccount (st0 : AppState) (putErr saveErr deleteErr : Option String)
    (now : Nat) (input : AddAccountInput) : AddAccountOutcome :=
  if strTrim input.id = "" then
    ⟨.error (.validation "id is required"), [], [], [], none⟩
  else if strTrim input.provider = "" then
    ⟨.error (.validation "provider is required"), [], [], [], none⟩
  else if strTrim input.secrets.accessToken = "" then
    ⟨.error (.validation "access_token is required"), [], [], [], none⟩
  else
    let secrets1 :=
      if input.secrets.accessExpiresAt = 0 then
        { input.secrets with accessExpiresAt := now + 3000 }
      else input.secrets
    let createdAt := match lookupAcct st0.accounts input.id with
      | some existing => existing.createdAt
      | none => now
    let acct : Account :=
      { id := input.id
        provider := toLowerStr (strTrim input.provider)
        email := strTrim input.email
        status := AccountReady
        lastAppliedAt := 0
        accessExpiresAt := secrets1.accessExpiresAt
        refreshExpiresAt := secrets1.refreshExpiresAt
        lastRefreshAt := 0
        lastError := ""
        quota := zeroQuotaSnapshot
        createdAt := createdAt
        updatedAt := now }
    let st1 : AppState :=
      { st0 with
        accounts := updateAcct st0.accounts input.id acct
        activeAccountID :=
          if st0.activeAccountID = "" then input.id else st0.activeAccountID }
    match putErr with
    | some e =>
        ⟨.error (.persistSecrets e), [(input.id, secrets1)], [], [], none⟩
    | none =>
        match saveErr with
        | some e =>
            match deleteErr with
            | some de =>
                ⟨.error (.persistState e (some de)), [(input.id, secrets1)],
                 [input.id], [st1], none⟩
            | none =>
                ⟨.error (.persistState e none), [(input.id, secrets1)],
                 [input.id], [st1], none⟩
        | none =>
            ⟨.ok acct, [(input.id, secrets1)], [], [st1], some st1⟩

/-! ## SetActiveAccount with credential applier -/

/-- Outcome of `SetActiveAccount`: result, the `Apply` invocations made on
the credential applier (account record and secrets as passed), the `Save`
invocations, and the persisted registry, if any. -/
structure SetActiveOutcome where
  result : Except String Unit
  applyCalls : List (Account × AuthSecrets)
  saveCalls : List AppState
  savedState : Option AppState
  deriving Repr

/-- Modelled from the spec: the applier-aware `SetActiveAccount` of the
Manager.  The implementation is absent from src/ (the `manager.go` present
there is an earlier revision without the applier; `manager_test.go`
exercises `WithActiveAccountApplier`).  Spec §5: "`SetActiveAccount(id)` —
rejects unknown id and accounts in `need_reauth` or `disabled`. Calls
Applier with the target's account+secrets; if Apply fails, state is not
mutated. On success, stamps `last_applied_at`, sets the active id,
persists."  `getSecrets` is the secret store's `Get`; `applyErr` is the
applier's outcome; `saveErr` is the state store's `Save` outcome. -/
def SetActiveAccount (st0 : AppState) (getSecrets : String → Option AuthSecrets)
    (applyErr saveErr : Option String) (now : Nat) (accountID : String) :
    SetActiveOutcome :=
  match lookupAcct st0.accounts accountID with
  | none => ⟨.error ("account " ++ accountID ++ " not found"), [], [], none⟩
  | some acct =>
      if acct.status = AccountNeedReauth ∨ acct.status = AccountDisabled then
        ⟨.error ("account " ++ accountID ++ " is not ready"), [], [], none⟩
      else
        match getSecrets accountID with
        | none => ⟨.error ("secrets for " ++ accountID ++ " not found"), [], [], none⟩
        | some secs =>
            match applyErr with
            | some e => ⟨.error e, [(acct, secs)], [], none⟩
            | none =>
                let acct' := { acct with lastAppliedAt := now, updatedAt := now }
                let st1 : AppState :=
                  { st0 with
                      activeAccountID := accountID
                      accounts := updateAcct st0.accounts accountID acct' }
                match saveErr with
                | some e => ⟨.error e, [(acct, secs)], [st1], none⟩
                | none => ⟨.ok (), [(acct, secs)], [st1], some st1⟩

/-! ## OAuth login sessions (internal/oauth, src/unnamed/part_005) -/

/-- `oauth.SessionStatus` constant. -/
def SessionPending : String := "pending"

/-- `oauth.SessionStatus` constant. -/
def SessionSuccess : String := "success"

/-- `oauth.SessionStatus` constant. -/
def SessionErrorStatus : String := "error"

/-- `oauth.SessionStatus` constant. -/
def SessionExpired : String := "expired"

/-- `oauth.SessionSnapshot` (part_005). -/
structure SessionSnapshot where
  state : String
  provider : String
  status : String
  authURL : String
  accountID : String
  error : String
  expiresAt : Nat
  deriving DecidableEq, Repr

/-- The session snapshot built by `oauth.Service.Start` (part_005): status
`pending`, expiry 10 minutes (600 s) after creation.  The random state,
the PKCE verifier and the assembled auth URL are passed in (their
generation is effectful). -/
def startSnapshot (state provider authURL : String) (now : Nat) : SessionSnapshot :=
  { state := state, provider := provider, status := SessionPending,
    authURL := authURL, accountID := "", error := "", expiresAt := now + 600 }

/-- `oauth.Service.Status` (part_005 lines 170-183) acting on one stored
session: if still pending and past expires-at, transition to `expired`
with error "oauth session expired".  The returned snapshot equals the
stored one after this mutation, so one function serves as both. -/
def StatusStep (sess : SessionSnapshot) (now : Nat) : SessionSnapshot :=
  if sess.status = SessionPending ∧ now > sess.expiresAt then
    { sess with status := SessionExpired, error := "oauth session expired" }
  else sess

/-! ## Claim theorems -/

/-- C6: `shouldSwitch(s, m)` is true iff `s ∈ {429, 500, 503}` or the
lowercased `m` contains one of the twelve known patterns; the four
concrete evaluations hold; and a non-switch-worthy `HandleQuotaError`
call returns `{switched=false, reason=not-switchable-error}` without
persisting any state. -/
theorem shouldSwitch_characterization :
    (∀ (s : Int) (m : String),
        shouldSwitch s m = true ↔
          ((s = 429 ∨ s = 500 ∨ s = 503) ∨
            ∃ p ∈ switchPatterns, strContains (toLowerStr m) p = true))
    ∧ shouldSwitch 429 "" = true
    ∧ shouldSwitch 400 "insufficient_quota" = true
    ∧ shouldSwitch 200 "Rate limit exceeded" = true
    ∧ shouldSwitch 200 "ok" = false
    ∧ (∀ (st0 : AppState) (fresh : String → Option String) (now : Nat)
          (s : Int) (m : String),
        shouldSwitch s m = false →
        HandleQuotaError st0 fresh now s m =
          .ok ⟨⟨false, "", "", "not-switchable-error"⟩, st0, false⟩) := by
  refine ⟨?_, by decide, by decide, by decide, by decide, ?_⟩
  · intro s m
    constructor
    · intro ht
      unfold shouldSwitch at ht
      by_cases h : s = 429 ∨ s = 500 ∨ s = 503
      · exact Or.inl h
      · rw [if_neg h] at ht
        by_cases hp : (switchPatterns.any fun p => strContains (toLowerStr m) p) = true
        · exact Or.inr (List.any_eq_true.mp hp)
        · rw [if_neg hp] at ht
          simp only [Bool.or_eq_true, beq_iff_eq] at ht
          exact absurd (by tauto) h
    · intro hr
      unfold shouldSwitch
      rcases hr with h | hp
      · rw [if_pos h]
      · by_cases h : s = 429 ∨ s = 500 ∨ s = 503
        · rw [if_pos h]
        · rw [if_neg h, if_pos (List.any_eq_true.mpr hp)]
  · intro st0 fresh now s m h
    simp [HandleQuotaError, h]

/-- Witness for C6 at `s = 200`, `m = "ok"` and a concrete registry. -/
theorem shouldSwitch_characterization_witness :
    shouldSwitch 200 "ok" = false ∧
    HandleQuotaError ⟨"A", "round-robin", []⟩ (fun _ => none) 0 200 "ok" =
      .ok ⟨⟨false, "", "", "not-switchable-error"⟩, ⟨"A", "round-robin", []⟩, false⟩ :=
  ⟨shouldSwitch_characterization.2.2.2.2.1,
   shouldSwitch_characterization.2.2.2.2.2 ⟨"A", "round-robin", []⟩ (fun _ => none) 0 200 "ok"
     shouldSwitch_characterization.2.2.2.2.1⟩

/-- C2: merging a fetched snapshot preserves windows missing from the new
snapshot (`merge(c, empty).session = c.session`, same for weekly), and the
merged `limit_reached` flag is the OR of the incoming signal and whether
any merged window's used-percent is at least 100. -/
theorem mergeQuotaSnapshot_spec :
    ∀ (current : QuotaSnapshot) (snap : Snapshot) (now : Nat),
      (mergeQuotaSnapshot current emptySnapshot now).session = current.session
      ∧ (mergeQuotaSnapshot current emptySnapshot now).weekly = current.weekly
      ∧ ((mergeQuotaSnapshot current snap now).limitReached = true ↔
          (snap.limitReached = true
            ∨ (mergeQuotaSnapshot current snap now).session.usedPercent ≥ 100
            ∨ (mergeQuotaSnapshot current snap now).weekly.usedPercent ≥ 100)) := by
  intro current snap now
  refine ⟨rfl, rfl, ?_⟩
  cases hs : snap.session <;> cases hw : snap.weekly <;>
    simp [mergeQuotaSnapshot, hs, hw, Bool.or_eq_true, decide_eq_true_eq, or_assoc]

/-- Spec-side reading of "the secondary window is a placeholder (zero
used-percent and zero reset instant)". -/
def isPlaceholderWindow (w : Option Window) : Prop :=
  ∃ x, w = some x ∧ x.usedPercent = 0 ∧ x.resetAt = 0

/-- Spec-side reading of "the window's reset instant is more than 24 hours
after now" (false for an absent window). -/
def resetsBeyond24h (w : Option Window) (now : Nat) : Prop :=
  ∃ x, w = some x ∧ x.resetAt > now + 86400

theorem secondaryLooksPlaceholder_iff (w : Option Window) :
    secondaryLooksPlaceholder w = true ↔ isPlaceholderWindow w := by
  cases w with
  | none => simp [secondaryLooksPlaceholder, isPlaceholderWindow]
  | some x => simp [secondaryLooksPlaceholder, isPlaceholderWindow]

theorem looksLikeWeeklyOnlyPrimary_iff (w : Option Window) (now : Nat) :
    looksLikeWeeklyOnlyPrimary w now = true ↔ resetsBeyond24h w now := by
  cases w with
  | none => simp [looksLikeWeeklyOnlyPrimary, resetsBeyond24h]
  | some x =>
      by_cases h : x.resetAt = 0
      · simp [looksLikeWeeklyOnlyPrimary, resetsBeyond24h, h]
      · simp [looksLikeWeeklyOnlyPrimary, resetsBeyond24h, h]

/-- C5: the quota fetcher's window mapping.  With `primary`/`secondary` the
converted optional windows of the upstream response: a placeholder
secondary is discarded when the primary resets more than 24 h after now;
a remaining secondary gives `session=primary, weekly=secondary`; otherwise
a beyond-24h primary gives `session=nil, weekly=primary` flagged
session-unsupported; otherwise `session=primary, weekly=nil`. -/
theorem fetchCodexSnapshot_window_mapping :
    ∀ (p s : Option CodexAPIWindow) (lr : Bool) (now : Nat),
      (∀ w, toWindowFromAPI s = some w →
        ¬(isPlaceholderWindow (toWindowFromAPI s)
            ∧ resetsBeyond24h (toWindowFromAPI p) now) →
        FetchCodexSnapshotCore p s lr now =
          ⟨toWindowFromAPI p, some w, now, lr, false⟩)
      ∧ ((toWindowFromAPI s = none
            ∨ (isPlaceholderWindow (toWindowFromAPI s)
                ∧ resetsBeyond24h (toWindowFromAPI p) now)) →
          (resetsBeyond24h (toWindowFromAPI p) now →
            FetchCodexSnapshotCore p s lr now =
              ⟨none, toWindowFromAPI p, now, lr, true⟩)
          ∧ (¬resetsBeyond24h (toWindowFromAPI p) now →
            FetchCodexSnapshotCore p s lr now =
              ⟨toWindowFromAPI p, none, now, lr, false⟩)) := by
  intro p s lr now
  constructor
  · intro w hw hnot
    have hcond : (secondaryLooksPlaceholder (toWindowFromAPI s)
        && looksLikeWeeklyOnlyPrimary (toWindowFromAPI p) now) = false := by
      rw [Bool.and_eq_false_iff]
      by_cases hpl : secondaryLooksPlaceholder (toWindowFromAPI s) = true
      · refine Or.inr ?_
        rw [← Bool.not_eq_true]
        intro hwk
        exact hnot ⟨(secondaryLooksPlaceholder_iff _).mp hpl,
          (looksLikeWeeklyOnlyPrimary_iff _ _).mp hwk⟩
      · exact Or.inl (by simpa using hpl)
    simp only [FetchCodexSnapshotCore, hcond, if_false, Bool.false_eq_true]
    rw [hw]
  · intro hdisc
    constructor
    · intro hwk
      have hwk' := (looksLikeWeeklyOnlyPrimary_iff (toWindowFromAPI p) now).mpr hwk
      rcases hdisc with hnone | ⟨hpl, _⟩
      · simp [FetchCodexSnapshotCore, hnone, secondaryLooksPlaceholder, hwk']
      · have hpl' := (secondaryLooksPlaceholder_iff (toWindowFromAPI s)).mpr hpl
        simp [FetchCodexSnapshotCore, hpl', hwk']
    · intro hnwk
      have hwk' : looksLikeWeeklyOnlyPrimary (toWindowFromAPI p) now = false := by
        rw [← Bool.not_eq_true]
        exact fun h => hnwk ((looksLikeWeeklyOnlyPrimary_iff _ _).mp h)
      rcases hdisc with hnone | ⟨_, hwk⟩
      · simp only [FetchCodexSnapshotCore, hnone, hwk', Bool.and_false, if_false]
        simp [hwk']
      · exact absurd ((looksLikeWeeklyOnlyPrimary_iff _ _).mpr hwk)
          (by simp [hwk'])

/-- Witness for C5: a beyond-24h primary with a placeholder secondary is
mapped to `session=nil, weekly=primary, session_unsupported=true`. -/
theorem fetchCodexSnapshot_window_mapping_witness :
    FetchCodexSnapshotCore (some ⟨40, 1000000⟩) (some ⟨0, 0⟩) false 0 =
      ⟨none, some ⟨40, 1000000⟩, 0, false, true⟩ :=
  ((fetchCodexSnapshot_window_mapping (some ⟨40, 1000000⟩) (some ⟨0, 0⟩) false 0).2
    (Or.inr ⟨⟨⟨0, 0⟩, rfl, rfl, rfl⟩, ⟨⟨40, 1000000⟩, rfl, by decide⟩⟩)).1
    ⟨⟨40, 1000000⟩, rfl, by decide⟩

/-- `Status` leaves any non-pending session untouched. -/
theorem statusStep_of_not_pending (sess : SessionSnapshot) (now : Nat)
    (h : sess.status ≠ SessionPending) : StatusStep sess now = sess := by
  unfold StatusStep
  rw [if_neg]
  intro hc
  exact h hc.1

/-- C8: a still-pending OAuth session whose expires-at (10 minutes after
creation) lies in the past is transitioned by `Status` to `expired` with
error "oauth session expired"; every subsequent `Status` call keeps
returning `expired`; and `Status` never changes the status of a session
that is not pending. -/
theorem oauthStatus_expiry :
    ∀ (st prov url : String) (t now now' : Nat) (sess : SessionSnapshot),
      (startSnapshot st prov url t).status = SessionPending
      ∧ (startSnapshot st prov url t).expiresAt = t + 600
      ∧ (now > t + 600 →
          (StatusStep (startSnapshot st prov url t) now).status = SessionExpired
          ∧ (StatusStep (startSnapshot st prov url t) now).error =
              "oauth session expired")
      ∧ (sess.status ≠ SessionPending → StatusStep sess now = sess)
      ∧ ((StatusStep sess now).status = SessionExpired →
          (StatusStep (StatusStep sess now) now').status = SessionExpired) := by
  intro st prov url t now now' sess
  refine ⟨rfl, rfl, ?_, ?_, ?_⟩
  · intro h
    constructor <;> simp [StatusStep, startSnapshot, h]
  · intro h
    exact statusStep_of_not_pending sess now h
  · intro h
    have hne : (StatusStep sess now).status ≠ SessionPending := by
      rw [h]
      decide
    rw [statusStep_of_not_pending _ now' hne, h]

/-- Witness for C8: a session created at time 0, polled at time 601. -/
theorem oauthStatus_expiry_witness :
    (601 > 0 + 600
      ∧ (StatusStep (startSnapshot "s" "codex" "u" 0) 601).status = SessionExpired
      ∧ (StatusStep (startSnapshot "s" "codex" "u" 0) 601).error =
          "oauth session expired")
    ∧ (StatusStep (StatusStep (startSnapshot "s" "codex" "u" 0) 601) 9999).status =
        SessionExpired := by
  have h := oauthStatus_expiry "s" "codex" "u" 0 601 9999
    (StatusStep (startSnapshot "s" "codex" "u" 0) 601)
  have hmain := h.2.2.1 (by decide)
  exact ⟨⟨by decide, hmain.1, hmain.2⟩,
    (oauthStatus_expiry "s" "codex" "u" 0 601 9999
      (StatusStep (startSnapshot "s" "codex" "u" 0) 601)).2.2.2.2 hmain.1⟩

/-- C9: an `AddAccount` input whose secrets carry a zero access-expires-at
gets `now + 50min` substituted, and both the secret record passed to the
store's `Put` and the returned account record carry that expiry. -/
theorem addAccount_zero_expiry_substitution :
    ∀ (st0 : AppState) (now : Nat) (input : AddAccountInput),
      strTrim input.id ≠ "" → strTrim input.provider ≠ "" →
      strTrim input.secrets.accessToken ≠ "" → input.secrets.accessExpiresAt = 0 →
      (AddAccount st0 none none none now input).putCalls =
        [(input.id, { input.secrets with accessExpiresAt := now + 3000 })]
      ∧ ∃ a, (AddAccount st0 none none none now input).result = .ok a
          ∧ a.accessExpiresAt = now + 3000 := by
  intro st0 now input h1 h2 h3 h4
  refine ⟨?_, ?_⟩
  · simp [AddAccount, h1, h2, h3, h4]
  · refine ⟨⟨input.id, toLowerStr (strTrim input.provider), strTrim input.email,
        AccountReady, 0, now + 3000, input.secrets.refreshExpiresAt, 0, "",
        zeroQuotaSnapshot,
        ((lookupAcct st0.accounts input.id).map Account.createdAt).getD now,
        now⟩, ?_, rfl⟩
    rcases hc : lookupAcct st0.accounts input.id with _ | ex <;>
      simp [AddAccount, h1, h2, h3, h4, hc]

/-- Witness for C9 at a concrete input with zero access expiry. -/
theorem addAccount_zero_expiry_substitution_witness :
    (AddAccount ⟨"", RoutingRoundRobin, []⟩ none none none 100
        ⟨"acc-1", "codex", "", ⟨"tok", "", "", "", 0, 0⟩⟩).putCalls =
      [("acc-1", ⟨"tok", "", "", "", 3100, 0⟩)]
    ∧ ∃ a, (AddAccount ⟨"", RoutingRoundRobin, []⟩ none none none 100
        ⟨"acc-1", "codex", "", ⟨"tok", "", "", "", 0, 0⟩⟩).result = .ok a
        ∧ a.accessExpiresAt = 3100 :=
  addAccount_zero_expiry_substitution ⟨"", RoutingRoundRobin, []⟩ 100
    ⟨"acc-1", "codex", "", ⟨"tok", "", "", "", 0, 0⟩⟩
    (by decide) (by decide) (by decide) rfl

/-- C10: re-adding an existing id preserves only `created_at`; status is
reset to ready; quota, last_error, last_applied_at, last_refresh_at revert
to zero values; provider, email and the expiry instants come from the new
input (access expiry after the zero-value substitution). -/
theorem addAccount_existing_id_resets :
    ∀ (st0 : AppState) (now : Nat) (input : AddAccountInput) (existing : Account),
      lookupAcct st0.accounts input.id = some existing →
      strTrim input.id ≠ "" → strTrim input.provider ≠ "" →
      strTrim input.secrets.accessToken ≠ "" →
      ∃ st1, (AddAccount st0 none none none now input).savedState = some st1
        ∧ lookupAcct st1.accounts input.id = some
            ⟨input.id, toLowerStr (strTrim input.provider), strTrim input.email,
             AccountReady, 0,
             (if input.secrets.accessExpiresAt = 0 then now + 3000
              else input.secrets.accessExpiresAt),
             input.secrets.refreshExpiresAt, 0, "", zeroQuotaSnapshot,
             existing.createdAt, now⟩ := by
  intro st0 now input existing hex h1 h2 h3
  refine ⟨⟨(if st0.activeAccountID = "" then input.id else st0.activeAccountID),
      st0.strategy,
      updateAcct st0.accounts input.id
        ⟨input.id, toLowerStr (strTrim input.provider), strTrim input.email,
         AccountReady, 0,
         (if input.secrets.accessExpiresAt = 0 then now + 3000
          else input.secrets.accessExpiresAt),
         input.secrets.refreshExpiresAt, 0, "", zeroQuotaSnapshot,
         existing.createdAt, now⟩⟩, ?_, lookupAcct_updateAcct_self _ _ _⟩
  by_cases hz : input.secrets.accessExpiresAt = 0 <;>
    simp [AddAccount, h1, h2, h3, hex, hz]

/-- Witness for C10: re-adding id "A" over an existing record. -/
theorem addAccount_existing_id_resets_witness :
    ∃ st1, (AddAccount
        ⟨"A", RoutingRoundRobin,
         [("A", ⟨"A", "codex", "old@x", AccountNeedReauth, 3, 4, 5, 6, "boom",
            ⟨⟨70, 9⟩, ⟨30, 9⟩, some true, true, 8⟩, 2, 9⟩)]⟩
        none none none 50
        ⟨"A", "Codex", "new@x", ⟨"tok", "r", "", "", 77, 88⟩⟩).savedState = some st1
      ∧ lookupAcct st1.accounts "A" = some
          ⟨"A", toLowerStr (strTrim "Codex"), strTrim "new@x", AccountReady, 0,
           (if (77 : Nat) = 0 then 50 + 3000 else 77), 88, 0, "",
           zeroQuotaSnapshot, 2, 50⟩ :=
  addAccount_existing_id_resets
    ⟨"A", RoutingRoundRobin,
     [("A", ⟨"A", "codex", "old@x", AccountNeedReauth, 3, 4, 5, 6, "boom",
        ⟨⟨70, 9⟩, ⟨30, 9⟩, some true, true, 8⟩, 2, 9⟩)]⟩
    50 ⟨"A", "Codex", "new@x", ⟨"tok", "r", "", "", 77, 88⟩⟩
    ⟨"A", "codex", "old@x", AccountNeedReauth, 3, 4, 5, 6, "boom",
     ⟨⟨70, 9⟩, ⟨30, 9⟩, some true, true, 8⟩, 2, 9⟩
    (by decide) (by decide) (by decide) (by decide)

/-- C3: `AddAccount` is all-or-nothing.  A failing secret `Put` yields a
persist-secrets error with no registry save; a failing registry `Save`
after a successful `Put` yields exactly one `Put` and one `Delete` for that
id, nothing persisted, and a persist-state error that also carries the
rollback cause when the rollback `Delete` fails too. -/
theorem addAccount_all_or_nothing :
    ∀ (st0 : AppState) (putErr saveErr deleteErr : Option String) (now : Nat)
      (input : AddAccountInput),
      strTrim input.id ≠ "" → strTrim input.provider ≠ "" →
      strTrim input.secrets.accessToken ≠ "" →
      (∀ e, putErr = some e →
        (AddAccount st0 putErr saveErr deleteErr now input).result =
            .error (.persistSecrets e)
        ∧ (AddAccount st0 putErr saveErr deleteErr now input).saveCalls = [])
      ∧ (∀ e, putErr = none → saveErr = some e →
        (AddAccount st0 putErr saveErr deleteErr now input).putCalls.length = 1
        ∧ (AddAccount st0 putErr saveErr deleteErr now input).deleteCalls = [input.id]
        ∧ (AddAccount st0 putErr saveErr deleteErr now input).savedState = none
        ∧ (deleteErr = none →
            (AddAccount st0 putErr saveErr deleteErr now input).result =
              .error (.persistState e none))
        ∧ (∀ de, deleteErr = some de →
            (AddAccount st0 putErr saveErr deleteErr now input).result =
              .error (.persistState e (some de)))) := by
  intro st0 putErr saveErr deleteErr now input h1 h2 h3
  constructor
  · intro e he
    subst he
    constructor <;> simp [AddAccount, h1, h2, h3]
  · intro e hput hsave
    subst hput
    subst hsave
    refine ⟨?_, ?_, ?_, ?_, ?_⟩
    · rcases deleteErr with _ | de <;> simp [AddAccount, h1, h2, h3]
    · rcases deleteErr with _ | de <;> simp [AddAccount, h1, h2, h3]
    · rcases deleteErr with _ | de <;> simp [AddAccount, h1, h2, h3]
    · intro hd
      subst hd
      simp [AddAccount, h1, h2, h3]
    · intro de hde
      subst hde
      simp [AddAccount, h1, h2, h3]

/-- Witness for C3: a failing secret `Put` on a concrete input. -/
theorem addAccount_all_or_nothing_witness :
    (AddAccount ⟨"", RoutingRoundRobin, []⟩ (some "secret write failed") none none 5
        ⟨"acc-1", "codex", "", ⟨"tok", "", "", "", 0, 0⟩⟩).result =
      .error (.persistSecrets "secret write failed")
    ∧ (AddAccount ⟨"", RoutingRoundRobin, []⟩ (some "secret write failed") none none 5
        ⟨"acc-1", "codex", "", ⟨"tok", "", "", "", 0, 0⟩⟩).saveCalls = [] :=
  (addAccount_all_or_nothing ⟨"", RoutingRoundRobin, []⟩ (some "secret write failed")
      none none 5 ⟨"acc-1", "codex", "", ⟨"tok", "", "", "", 0, 0⟩⟩
      (by decide) (by decide) (by decide)).1 "secret write failed" rfl

/-- C1: for a ready account with stored secrets, `SetActiveAccount` calls
the credential applier exactly once with that account's record and
secrets; if `Apply` fails nothing is saved and the persisted state is
unchanged; on success `last_applied_at` is stamped, the active id is set,
and the registry is persisted. -/
theorem setActiveAccount_applier_contract :
    ∀ (st0 : AppState) (getSecrets : String → Option AuthSecrets)
      (applyErr saveErr : Option String) (now : Nat) (accountID : String)
      (acct : Account) (secs : AuthSecrets),
      lookupAcct st0.accounts accountID = some acct →
      acct.status = AccountReady →
      getSecrets accountID = some secs →
      (SetActiveAccount st0 getSecrets applyErr saveErr now accountID).applyCalls =
          [(acct, secs)]
      ∧ (∀ e, applyErr = some e →
          (SetActiveAccount st0 getSecrets applyErr saveErr now accountID).saveCalls = []
          ∧ (SetActiveAccount st0 getSecrets applyErr saveErr now accountID).savedState
              = none
          ∧ (SetActiveAccount st0 getSecrets applyErr saveErr now accountID).result =
              .error e)
      ∧ (applyErr = none → saveErr = none →
          ∃ st1,
            (SetActiveAccount st0 getSecrets applyErr saveErr now accountID).savedState
                = some st1
            ∧ (SetActiveAccount st0 getSecrets applyErr saveErr now accountID).result =
                .ok ()
            ∧ st1.activeAccountID = accountID
            ∧ lookupAcct st1.accounts accountID =
                some { acct with lastAppliedAt := now, updatedAt := now }) := by
  intro st0 getSecrets applyErr saveErr now accountID acct secs hlk hready hsec
  have hstat : ¬(acct.status = AccountNeedReauth ∨ acct.status = AccountDisabled) := by
    rw [hready]
    decide
  refine ⟨?_, ?_, ?_⟩
  · rcases applyErr with _ | e <;> rcases saveErr with _ | e2 <;>
      simp [SetActiveAccount, hlk, hstat, hsec]
  · intro e he
    subst he
    refine ⟨?_, ?_, ?_⟩ <;> simp [SetActiveAccount, hlk, hstat, hsec]
  · intro ha hs
    subst ha
    subst hs
    refine ⟨⟨accountID, st0.strategy,
        updateAcct st0.accounts accountID
          { acct with lastAppliedAt := now, updatedAt := now }⟩,
      ?_, ?_, rfl, lookupAcct_updateAcct_self _ _ _⟩
    · simp [SetActiveAccount, hlk, hstat, hsec]
    · simp [SetActiveAccount, hlk, hstat, hsec]

/-- Witness for C1: a two-step scenario at a concrete ready account. -/
theorem setActiveAccount_applier_contract_witness :
    (SetActiveAccount
        ⟨"B", RoutingRoundRobin,
         [("A", ⟨"A", "codex", "", AccountReady, 0, 0, 0, 0, "",
            zeroQuotaSnapshot, 0, 0⟩)]⟩
        (fun _ => some ⟨"tok", "", "", "", 0, 0⟩) none none 7 "A").applyCalls =
      [(⟨"A", "codex", "", AccountReady, 0, 0, 0, 0, "", zeroQuotaSnapshot, 0, 0⟩,
        ⟨"tok", "", "", "", 0, 0⟩)]
    ∧ ∃ st1, (SetActiveAccount
        ⟨"B", RoutingRoundRobin,
         [("A", ⟨"A", "codex", "", AccountReady, 0, 0, 0, 0, "",
            zeroQuotaSnapshot, 0, 0⟩)]⟩
        (fun _ => some ⟨"tok", "", "", "", 0, 0⟩) none none 7 "A").savedState =
          some st1
        ∧ st1.activeAccountID = "A" :=
  And.intro
    (setActiveAccount_applier_contract
      ⟨"B", RoutingRoundRobin,
       [("A", ⟨"A", "codex", "", AccountReady, 0, 0, 0, 0, "",
          zeroQuotaSnapshot, 0, 0⟩)]⟩
      (fun _ => some ⟨"tok", "", "", "", 0, 0⟩) none none 7 "A"
      ⟨"A", "codex", "", AccountReady, 0, 0, 0, 0, "", zeroQuotaSnapshot, 0, 0⟩
      ⟨"tok", "", "", "", 0, 0⟩ (by decide) rfl rfl).1
    (match (setActiveAccount_applier_contract
      ⟨"B", RoutingRoundRobin,
       [("A", ⟨"A", "codex", "", AccountReady, 0, 0, 0, 0, "",
          zeroQuotaSnapshot, 0, 0⟩)]⟩
      (fun _ => some ⟨"tok", "", "", "", 0, 0⟩) none none 7 "A"
      ⟨"A", "codex", "", AccountReady, 0, 0, 0, 0, "", zeroQuotaSnapshot, 0, 0⟩
      ⟨"tok", "", "", "", 0, 0⟩ (by decide) rfl rfl).2.2 rfl rfl with
      | ⟨st1, hsave, _, hactive, _⟩ => ⟨st1, hsave, hactive⟩)

/-- `getAcct` only depends on the accounts map. -/
theorem getAcct_congr (st st' : AppState) (c : String)
    (h : lookupAcct st.accounts c = lookupAcct st'.accounts c) :
    getAcct st c = getAcct st' c := by
  simp [getAcct, h]

/-- The candidate loop never touches registry entries outside its list. -/
theorem attemptSwitch_lookup_frame (fresh : String → Option String) (now : Nat) :
    ∀ (order : List String) (st : AppState) (k : String), k ∉ order →
      lookupAcct (attemptSwitch fresh now order st).1.accounts k =
        lookupAcct st.accounts k := by
  intro order
  induction order with
  | nil => intro st k _; rfl
  | cons id rest ih =>
      intro st k hk
      have hkid : k ≠ id := fun h => hk (h ▸ List.mem_cons_self id rest)
      have hkrest : k ∉ rest := fun h => hk (List.mem_cons_of_mem _ h)
      by_cases hd : (getAcct st id).status = AccountDisabled
      · simp only [attemptSwitch, hd, if_true, if_pos]
        exact ih st k hkrest
      · rcases hf : fresh id with _ | e
        · simp only [attemptSwitch, hd, if_neg, if_false, hf]
          exact lookupAcct_updateAcct_ne _ _ _ _ hkid
        · simp only [attemptSwitch, hd, if_neg, if_false, hf]
          rw [ih _ k hkrest]
          exact lookupAcct_updateAcct_ne _ _ _ _ hkid

/-- When the candidate loop exhausts its list, the active id is unchanged. -/
theorem attemptSwitch_none_active (fresh : String → Option String) (now : Nat) :
    ∀ (order : List String) (st : AppState),
      (attemptSwitch fresh now order st).2 = none →
      (attemptSwitch fresh now order st).1.activeAccountID = st.activeAccountID := by
  intro order
  induction order with
  | nil => intro st _; rfl
  | cons id rest ih =>
      intro st hnone
      by_cases hd : (getAcct st id).status = AccountDisabled
      · simp only [attemptSwitch, hd, if_true, if_pos] at hnone ⊢
        exact ih st hnone
      · rcases hf : fresh id with _ | e
        · simp only [attemptSwitch, hd, if_neg, if_false, hf] at hnone
          exact absurd hnone (Option.some_ne_none id)
        · simp only [attemptSwitch, hd, if_neg, if_false, hf] at hnone ⊢
          exact ih _ hnone

/-- Exhaustion case of the candidate loop: every candidate was either
disabled or failed the freshness check and was marked `need_reauth` with
the error message in the resulting state. -/
theorem attemptSwitch_none_spec (fresh : String → Option String) (now : Nat) :
    ∀ (order : List String) (st : AppState),
      order.Nodup →
      (attemptSwitch fresh now order st).2 = none →
      ∀ c ∈ order, (getAcct st c).status = AccountDisabled
        ∨ ∃ e, fresh c = some e ∧
            lookupAcct (attemptSwitch fresh now order st).1.accounts c =
              some (markReauth (getAcct st c) e now) := by
  intro order
  induction order with
  | nil => intro st _ _ c hc; cases hc
  | cons id rest ih =>
      intro st hnd hnone c hc
      rw [List.nodup_cons] at hnd
      by_cases hd : (getAcct st id).status = AccountDisabled
      · simp only [attemptSwitch, hd, if_true, if_pos] at hnone ⊢
        rcases List.mem_cons.mp hc with hceq | hcrest
        · subst hceq
          exact Or.inl hd
        · exact ih st hnd.2 hnone c hcrest
      · rcases hf : fresh id with _ | e
        · simp only [attemptSwitch, hd, if_neg, if_false, hf] at hnone
          exact absurd hnone (Option.some_ne_none id)
        · simp only [attemptSwitch, hd, if_neg, if_false, hf] at hnone ⊢
          rcases List.mem_cons.mp hc with hceq | hcrest
          · subst hceq
            refine Or.inr ⟨e, hf, ?_⟩
            rw [attemptSwitch_lookup_frame fresh now rest _ c hnd.1]
            exact lookupAcct_updateAcct_self _ _ _
          · have hcne : c ≠ id := fun h => hnd.1 (h ▸ hcrest)
            have hacct : getAcct
                { st with accounts :=
                    updateAcct st.accounts id (markReauth (getAcct st id) e now) } c
                = getAcct st c :=
              getAcct_congr _ _ _ (lookupAcct_updateAcct_ne _ _ _ _ hcne)
            have hih := ih _ hnd.2 hnone c hcrest
            rw [hacct] at hih
            exact hih

/-- Success case of the candidate loop: the chosen candidate is the first
one in the list that is neither disabled nor failing the freshness check;
every earlier candidate was disabled or got marked `need_reauth`; the
chosen one is made ready and active in the resulting state. -/
theorem attemptSwitch_some_spec (fresh : String → Option String) (now : Nat) :
    ∀ (order : List String) (st : AppState) (toID : String),
      order.Nodup →
      (attemptSwitch fresh now order st).2 = some toID →
      (getAcct st toID).status ≠ AccountDisabled
      ∧ fresh toID = none
      ∧ (attemptSwitch fresh now order st).1.activeAccountID = toID
      ∧ lookupAcct (attemptSwitch fresh now order st).1.accounts toID =
          some (markReady (getAcct st toID) now)
      ∧ ∃ pre post, order = pre ++ toID :: post
          ∧ ∀ c ∈ pre, (getAcct st c).status = AccountDisabled
              ∨ ∃ e, fresh c = some e ∧
                  lookupAcct (attemptSwitch fresh now order st).1.accounts c =
                    some (markReauth (getAcct st c) e now) := by
  intro order
  induction order with
  | nil => intro st toID _ hsome; cases hsome
  | cons id rest ih =>
      intro st toID hnd hsome
      rw [List.nodup_cons] at hnd
      by_cases hd : (getAcct st id).status = AccountDisabled
      · simp only [attemptSwitch, hd, if_true, if_pos] at hsome ⊢
        obtain ⟨hdis, hfr, hact, hlk, pre, post, hdecomp, hpre⟩ :=
          ih st toID hnd.2 hsome
        refine ⟨hdis, hfr, hact, hlk, id :: pre, post, by rw [hdecomp]; rfl, ?_⟩
        intro c hc
        rcases List.mem_cons.mp hc with hceq | hcpre
        · subst hceq
          exact Or.inl hd
        · exact hpre c hcpre
      · rcases hf : fresh id with _ | e
        · simp only [attemptSwitch, hd, if_neg, if_false, hf] at hsome ⊢
          have htoid : toID = id := (Option.some_inj.mp hsome).symm
          subst htoid
          refine ⟨hd, hf, rfl, lookupAcct_updateAcct_self _ _ _, [], rest, rfl, ?_⟩
          intro c hc
          cases hc
        · simp only [attemptSwitch, hd, if_neg, if_false, hf] at hsome ⊢
          obtain ⟨hdis, hfr, hact, hlk, pre, post, hdecomp, hpre⟩ :=
            ih _ toID hnd.2 hsome
          have htomem : toID ∈ rest := by
            rw [hdecomp]
            exact List.mem_append_right _ (List.mem_cons_self _ _)
          have htone : toID ≠ id := fun h => hnd.1 (h ▸ htomem)
          have hacct : getAcct
              { st with accounts :=
                  updateAcct st.accounts id (markReauth (getAcct st id) e now) } toID
              = getAcct st toID :=
            getAcct_congr _ _ _ (lookupAcct_updateAcct_ne _ _ _ _ htone)
          rw [hacct] at hdis hlk
          refine ⟨hdis, hfr, hact, hlk, id :: pre, post, by rw [hdecomp]; rfl, ?_⟩
          intro c hc
          rcases List.mem_cons.mp hc with hceq | hcpre
          · subst hceq
            refine Or.inr ⟨e, hf, ?_⟩
            rw [attemptSwitch_lookup_frame fresh now rest _ c hnd.1]
            exact lookupAcct_updateAcct_self _ _ _
          · have hcmem : c ∈ rest := by
              rw [hdecomp]
              exact List.mem_append_left _ hcpre
            have hcne : c ≠ id := fun h => hnd.1 (h ▸ hcmem)
            have hacct2 : getAcct
                { st with accounts :=
                    updateAcct st.accounts id (markReauth (getAcct st id) e now) } c
                = getAcct st c :=
              getAcct_congr _ _ _ (lookupAcct_updateAcct_ne _ _ _ _ hcne)
            have hih := hpre c hcpre
            rw [hacct2] at hih
            exact hih

/-- The candidate list of distinct registry keys stays duplicate-free. -/
theorem orderedCandidates_nodup (st : AppState) (activeID : String)
    (h : (st.accounts.map Prod.fst).Nodup) :
    (orderedCandidates st activeID).Nodup := by
  have hf : ((st.accounts.map Prod.fst).filter
      (fun id => id ≠ activeID)).Nodup := h.filter _
  unfold orderedCandidates
  by_cases hs : st.strategy = RoutingFillFirst
  · rw [if_pos hs]
    exact ((List.perm_insertionSort _ _).nodup_iff).mpr hf
  · rw [if_neg hs]
    exact ((List.perm_insertionSort _ _).nodup_iff).mpr hf

/-- C7: the switch candidate list is a permutation of the account ids other
than the active one; under fill-first it is sorted by ascending session
plus weekly used-percent with ties by id, under round-robin it is sorted
lexicographically by id; and on the concrete example with active A,
B (70/10) and C (20/10), the fill-first order is `[C, B]`. -/
theorem orderedCandidates_ordering :
    ∀ (st : AppState) (activeID : String),
      (orderedCandidates st activeID).Perm
          ((st.accounts.map Prod.fst).filter (fun id => id ≠ activeID))
      ∧ (st.strategy = RoutingFillFirst →
          (orderedCandidates st activeID).Sorted (fillLE st))
      ∧ (st.strategy = RoutingRoundRobin →
          (orderedCandidates st activeID).Sorted (· ≤ ·))
      ∧ orderedCandidates
          ⟨"A", RoutingFillFirst,
           [("A", ⟨"A", "", "", "", 0, 0, 0, 0, "",
              ⟨⟨50, 0⟩, ⟨10, 0⟩, none, false, 0⟩, 0, 0⟩),
            ("B", ⟨"B", "", "", "", 0, 0, 0, 0, "",
              ⟨⟨70, 0⟩, ⟨10, 0⟩, none, false, 0⟩, 0, 0⟩),
            ("C", ⟨"C", "", "", "", 0, 0, 0, 0, "",
              ⟨⟨20, 0⟩, ⟨10, 0⟩, none, false, 0⟩, 0, 0⟩)]⟩
          "A" = ["C", "B"] := by
  intro st activeID
  refine ⟨?_, ?_, ?_, ?_⟩
  · unfold orderedCandidates
    by_cases hs : st.strategy = RoutingFillFirst
    · rw [if_pos hs]
      exact List.perm_insertionSort _ _
    · rw [if_neg hs]
      exact List.perm_insertionSort _ _
  · intro hs
    unfold orderedCandidates
    rw [if_pos hs]
    exact List.sorted_insertionSort _ _
  · intro hs
    have hs' : st.strategy ≠ RoutingFillFirst := by
      rw [hs]
      decide
    unfold orderedCandidates
    rw [if_neg hs']
    exact List.sorted_insertionSort _ _
  · decide

/-- Witness for C7: the fill-first conjunct discharged on the concrete
example registry. -/
theorem orderedCandidates_ordering_witness :
    ((⟨"A", RoutingFillFirst,
      [("A", ⟨"A", "", "", "", 0, 0, 0, 0, "",
         ⟨⟨50, 0⟩, ⟨10, 0⟩, none, false, 0⟩, 0, 0⟩),
       ("B", ⟨"B", "", "", "", 0, 0, 0, 0, "",
         ⟨⟨70, 0⟩, ⟨10, 0⟩, none, false, 0⟩, 0, 0⟩),
       ("C", ⟨"C", "", "", "", 0, 0, 0, 0, "",
         ⟨⟨20, 0⟩, ⟨10, 0⟩, none, false, 0⟩, 0, 0⟩)]⟩ : AppState).strategy
        = RoutingFillFirst)
    ∧ (orderedCandidates
        ⟨"A", RoutingFillFirst,
         [("A", ⟨"A", "", "", "", 0, 0, 0, 0, "",
            ⟨⟨50, 0⟩, ⟨10, 0⟩, none, false, 0⟩, 0, 0⟩),
          ("B", ⟨"B", "", "", "", 0, 0, 0, 0, "",
            ⟨⟨70, 0⟩, ⟨10, 0⟩, none, false, 0⟩, 0, 0⟩),
          ("C", ⟨"C", "", "", "", 0, 0, 0, 0, "",
            ⟨⟨20, 0⟩, ⟨10, 0⟩, none, false, 0⟩, 0, 0⟩)]⟩
        "A").Sorted (fillLE
        ⟨"A", RoutingFillFirst,
         [("A", ⟨"A", "", "", "", 0, 0, 0, 0, "",
            ⟨⟨50, 0⟩, ⟨10, 0⟩, none, false, 0⟩, 0, 0⟩),
          ("B", ⟨"B", "", "", "", 0, 0, 0, 0, "",
            ⟨⟨70, 0⟩, ⟨10, 0⟩, none, false, 0⟩, 0, 0⟩),
          ("C", ⟨"C", "", "", "", 0, 0, 0, 0, "",
            ⟨⟨20, 0⟩, ⟨10, 0⟩, none, false, 0⟩, 0, 0⟩)]⟩) :=
  ⟨rfl,
   (orderedCandidates_ordering
      ⟨"A", RoutingFillFirst,
       [("A", ⟨"A", "", "", "", 0, 0, 0, 0, "",
          ⟨⟨50, 0⟩, ⟨10, 0⟩, none, false, 0⟩, 0, 0⟩),
        ("B", ⟨"B", "", "", "", 0, 0, 0, 0, "",
          ⟨⟨70, 0⟩, ⟨10, 0⟩, none, false, 0⟩, 0, 0⟩),
        ("C", ⟨"C", "", "", "", 0, 0, 0, 0, "",
          ⟨⟨20, 0⟩, ⟨10, 0⟩, none, false, 0⟩, 0, 0⟩)]⟩
      "A").2.1 rfl⟩

/-- C4: a switch-worthy `HandleQuotaError` on a registry with a non-empty
active account scans candidates in strategy order, skips disabled ones,
marks freshness failures `need_reauth` with the error message, promotes
the first passing candidate to ready and active and persists — so
`{switched=true, to=X}` implies the persisted `active_account_id = X`,
reason `quota-exceeded`, from the old active; on exhaustion the
accumulated updates are persisted and
`{switched=false, reason=no-available-account}` is returned. -/
theorem handleQuotaError_switch_behavior :
    ∀ (st0 : AppState) (fresh : String → Option String) (now : Nat)
      (code : Int) (msg : String),
      shouldSwitch code msg = true →
      st0.activeAccountID ≠ "" →
      st0.accounts ≠ [] →
      (st0.accounts.map Prod.fst).Nodup →
      ∃ r, HandleQuotaError st0 fresh now code msg = .ok r
        ∧ r.saved = true
        ∧ r.decision.fromAccountID = st0.activeAccountID
        ∧ (r.decision.switched = true →
            r.decision.reason = "quota-exceeded"
            ∧ r.state.activeAccountID = r.decision.toAccountID
            ∧ fresh r.decision.toAccountID = none
            ∧ (getAcct st0 r.decision.toAccountID).status ≠ AccountDisabled
            ∧ lookupAcct r.state.accounts r.decision.toAccountID =
                some (markReady (getAcct st0 r.decision.toAccountID) now)
            ∧ ∃ pre post,
                orderedCandidates st0 st0.activeAccountID =
                  pre ++ r.decision.toAccountID :: post
                ∧ ∀ c ∈ pre, (getAcct st0 c).status = AccountDisabled
                    ∨ ∃ e, fresh c = some e ∧
                        lookupAcct r.state.accounts c =
                          some (markReauth (getAcct st0 c) e now))
        ∧ (r.decision.switched = false →
            r.decision.reason = "no-available-account"
            ∧ ∀ c ∈ orderedCandidates st0 st0.activeAccountID,
                (getAcct st0 c).status = AccountDisabled
                ∨ ∃ e, fresh c = some e ∧
                    lookupAcct r.state.accounts c =
                      some (markReauth (getAcct st0 c) e now)) := by
  intro st0 fresh now code msg hsw hactive hne hnodup
  have hnd : (orderedCandidates st0 st0.activeAccountID).Nodup :=
    orderedCandidates_nodup _ _ hnodup
  rcases hres : attemptSwitch fresh now (orderedCandidates st0 st0.activeAccountID) st0
    with ⟨st, res⟩
  rcases res with _ | toID
  · refine ⟨⟨⟨false, st0.activeAccountID, "", "no-available-account"⟩, st, true⟩,
      ?_, rfl, rfl, ?_, ?_⟩
    · simp [HandleQuotaError, hsw, hactive, hne, hres]
    · intro h
      cases h
    · intro _
      refine ⟨rfl, ?_⟩
      intro c hc
      have hspec := attemptSwitch_none_spec fresh now _ st0 hnd (by rw [hres]) c hc
      rw [hres] at hspec
      exact hspec
  · refine ⟨⟨⟨true, st0.activeAccountID, toID, "quota-exceeded"⟩, st, true⟩,
      ?_, rfl, rfl, ?_, ?_⟩
    · simp [HandleQuotaError, hsw, hactive, hne, hres]
    · intro _
      obtain ⟨hdis, hfr, hact, hlk, pre, post, hdecomp, hpre⟩ :=
        attemptSwitch_some_spec fresh now _ st0 toID hnd (by rw [hres])
      rw [hres] at hact hlk
      refine ⟨rfl, hact, hfr, hdis, hlk, pre, post, hdecomp, ?_⟩
      intro c hc
      have hspec := hpre c hc
      rw [hres] at hspec
      exact hspec
    · intro h
      cases h

/-- Witness for C4: two ready accounts, fill of the hypotheses at a
concrete 429 call. -/
theorem handleQuotaError_switch_behavior_witness :
    shouldSwitch 429 "" = true
    ∧ ∃ r, HandleQuotaError
        ⟨"A", RoutingRoundRobin,
         [("A", ⟨"A", "codex", "", AccountReady, 0, 0, 0, 0, "",
            zeroQuotaSnapshot, 0, 0⟩),
          ("B", ⟨"B", "codex", "", AccountReady, 0, 0, 0, 0, "",
            zeroQuotaSnapshot, 0, 0⟩)]⟩
        (fun _ => none) 3 429 "" = .ok r
      ∧ r.saved = true :=
  ⟨by decide,
    match handleQuotaError_switch_behavior
      ⟨"A", RoutingRoundRobin,
       [("A", ⟨"A", "codex", "", AccountReady, 0, 0, 0, 0, "",
          zeroQuotaSnapshot, 0, 0⟩),
        ("B", ⟨"B", "codex", "", AccountReady, 0, 0, 0, 0, "",
          zeroQuotaSnapshot, 0, 0⟩)]⟩
      (fun _ => none) 3 429 "" (by decide) (by decide) (by decide) (by decide) with
    | ⟨r, heq, hsaved, _, _, _⟩ => ⟨r, heq, hsaved⟩⟩
